import Mathlib

/-! Verification of the QR branding overlay engine (`src/qr/generator.rs`).

Shallow embedding of the QR generation engine of this repository.  The engine
lives in `src/qr/generator.rs`; its externally supplied capabilities (the
`qrcode` matrix encoder, the `image` crate's PNG encoder and `resize`, the
filesystem, and the `resvg`/`tiny_skia` SVG pipeline) are modelled as explicit
parameters, so every theorem below holds for every implementation of those
capabilities.

Numeric conventions: Rust `u32` values are embedded as `Nat` (all quantities in
this code path are small and non-negative, and no arithmetic in the embedded
code can overflow `u32`); the `f32` arithmetic of the scaling and blending code
is embedded as exact rational arithmetic over `ℚ`, and a non-negative
`as u32` / `as u8` cast (truncation toward zero) is embedded as `Nat.floor`.
-/

/-- One RGBA pixel, 8 bits per channel (`image::Rgba<u8>`).  Channels are
embedded as `Nat`; real pixels have every channel `< 256`. -/
structure Rgba where
  r : Nat
  g : Nat
  b : Nat
  a : Nat
deriving DecidableEq, Repr

/-- An RGBA pixel buffer (`image::RgbaImage`) with explicit dimensions.  The
pixel contents are represented as a total function; only coordinates with
`x < width` and `y < height` are meaningful. -/
structure RgbaImage where
  width : Nat
  height : Nat
  pixel : Nat → Nat → Rgba

/-- A square boolean module matrix, the output of the external QR symbol
encoding capability (`qrcode::QrCode`). -/
structure ModuleMatrix where
  side : Nat
  dark : Nat → Nat → Bool

/-- Error-correction levels of the external matrix encoder
(`qrcode::EcLevel`). -/
inductive EcLevel where
  | L
  | M
  | Q
  | H
deriving DecidableEq, Repr

/-- The external matrix-encoding capability:
`QrCode::with_error_correction_level(content, level)`.  Failure (content too
long for any symbol version) is an error message string. -/
def MatrixEncoder : Type := String → EcLevel → Except String ModuleMatrix

/-- The external PNG serialization capability
(`image::codecs::png::PngEncoder::write_image`): pixel buffer to byte
sequence, possibly failing with a message. -/
def PngSink : Type := RgbaImage → Except String (List Nat)

/-- The external raster-resampling capability
(`image::imageops::resize` with `FilterType::Lanczos3`): its contract is to
produce an image of exactly the requested dimensions; the resampled pixel
values are the capability's business.  Kept abstract: no theorem below depends
on the resampled values. -/
structure ImageOps where
  resize : RgbaImage → Nat → Nat → RgbaImage

/-- Source: `const LOGO_MAX_SCALE: f32 = 0.20` — maximum logo size as a fraction of
the QR code size (20%). -/
def LOGO_MAX_SCALE : ℚ := 20 / 100

/-- Source: `QrGenerator { size: u32, logo: Option<RgbaImage> }`. -/
structure QrGenerator where
  size : Nat
  logo : Option RgbaImage

/-! ## Compositor (`overlay_logo`), split into its straight-line pieces -/

/-- Source: `let qr_size = qr.width().min(qr.height());` -/
def qrSizeOf (qr : RgbaImage) : Nat := min qr.width qr.height

/-- Source: `let max_logo_size = (qr_size as f32 * LOGO_MAX_SCALE) as u32;` -/
def maxLogoSizeOf (qr : RgbaImage) : Nat :=
  Nat.floor ((qrSizeOf qr : ℚ) * LOGO_MAX_SCALE)

/-- Source: `let scale = (max_logo_size as f32 / logo_width.max(logo_height) as f32).min(1.0);`
(In ℚ, division by zero is zero; the `f32` code produces `1.0` for a
zero-dimension logo, but both make the scaled dimensions `0` below, so the
observable results agree.) -/
def scaleOf (qr logo : RgbaImage) : ℚ :=
  min ((maxLogoSizeOf qr : ℚ) / (max logo.width logo.height : ℚ)) 1

/-- Source: `let new_width = (logo_width as f32 * scale) as u32;` -/
def newWidthOf (qr logo : RgbaImage) : Nat :=
  Nat.floor ((logo.width : ℚ) * scaleOf qr logo)

/-- Source: `let new_height = (logo_height as f32 * scale) as u32;` -/
def newHeightOf (qr logo : RgbaImage) : Nat :=
  Nat.floor ((logo.height : ℚ) * scaleOf qr logo)

/-- Source: `let padding = 4;` -/
def PADDING : Nat := 4

/-- The white-background loop of `overlay_logo`: paints the axis-aligned
rectangle from `(bgX, bgY)` to `(min (bgX+bgW) qr.width, min (bgY+bgH) qr.height)`
(exclusive) fully opaque white, exactly as the two nested `for` loops with
their `.min(qr.height())` / `.min(qr.width())` upper bounds do. -/
def paintBackground (qr : RgbaImage) (bgX bgY bgW bgH : Nat) : RgbaImage :=
  { width := qr.width
    height := qr.height
    pixel := fun x y =>
      if bgX ≤ x ∧ x < min (bgX + bgW) qr.width ∧
         bgY ≤ y ∧ y < min (bgY + bgH) qr.height then
        ⟨255, 255, 255, 255⟩
      else
        qr.pixel x y }

/-- The per-pixel alpha blend of `overlay_logo`:
`alpha = pixel[3] / 255.0`, each colour channel becomes
`((1 - alpha) * bg + alpha * pixel) as u8`, the alpha channel is set to
`255`. -/
def blendPixel (bg p : Rgba) : Rgba :=
  let alpha : ℚ := (p.a : ℚ) / 255
  { r := Nat.floor ((1 - alpha) * (bg.r : ℚ) + alpha * (p.r : ℚ))
    g := Nat.floor ((1 - alpha) * (bg.g : ℚ) + alpha * (p.g : ℚ))
    b := Nat.floor ((1 - alpha) * (bg.b : ℚ) + alpha * (p.b : ℚ))
    a := 255 }

/-- The logo-overlay loop of `overlay_logo`: for every pixel `(lx, ly)` of the
scaled logo, writes the blend at `(x_offset + lx, y_offset + ly)` provided that
destination is inside the canvas (`qx < qr.width() && qy < qr.height()`) and
the logo pixel's alpha is positive (`alpha > 0.0`); all other destination
pixels are left as they are.  Each destination coordinate corresponds to at
most one logo pixel, so the loop is equivalently this pointwise function. -/
def blendLogo (qr src : RgbaImage) (xOffset yOffset : Nat) : RgbaImage :=
  { width := qr.width
    height := qr.height
    pixel := fun qx qy =>
      if xOffset ≤ qx ∧ qx < xOffset + src.width ∧
         yOffset ≤ qy ∧ qy < yOffset + src.height ∧
         qx < qr.width ∧ qy < qr.height ∧
         (0 : ℚ) < ((src.pixel (qx - xOffset) (qy - yOffset)).a : ℚ) / 255 then
        blendPixel (qr.pixel qx qy) (src.pixel (qx - xOffset) (qy - yOffset))
      else
        qr.pixel qx qy }

/-- Source: `let x_offset = (qr.width() - new_width) / 2;` — unchecked `u32`
subtraction; `new_width ≤ qr.width()` always holds (proved below), so `Nat`
subtraction agrees with it. -/
def xOffsetOf (qr logo : RgbaImage) : Nat := (qr.width - newWidthOf qr logo) / 2

/-- Source: `let y_offset = (qr.height() - new_height) / 2;` -/
def yOffsetOf (qr logo : RgbaImage) : Nat := (qr.height - newHeightOf qr logo) / 2

/-- Source: `fn overlay_logo(mut qr: RgbaImage, logo: &RgbaImage) -> Result<RgbaImage, String>`.
The Rust function's `Result` is always `Ok`, so the embedding returns the image
directly: resize the logo to `(new_width, new_height)`, paint the white
backing rectangle at `bg_x = x_offset.saturating_sub(padding)`
(`Nat` subtraction), `bg_y` likewise, of size
`(new_width + padding * 2, new_height + padding * 2)`, then blend the scaled
logo at `(x_offset, y_offset)`. -/
def overlay_logo (ops : ImageOps) (qr logo : RgbaImage) : RgbaImage :=
  blendLogo
    (paintBackground qr (xOffsetOf qr logo - PADDING) (yOffsetOf qr logo - PADDING)
      (newWidthOf qr logo + PADDING * 2) (newHeightOf qr logo + PADDING * 2))
    (ops.resize logo (newWidthOf qr logo) (newHeightOf qr logo))
    (xOffsetOf qr logo) (yOffsetOf qr logo)

/-! ## Rasterizer and engine orchestration -/

/-- Modelled from the spec: the rasterization step
(`qr.render::<Rgba<u8>>().quiet_zone(true).min_dimensions(size, size).max_dimensions(size, size).build()`)
is implemented by the `qrcode` crate's renderer, whose code is not part of this
repository's sources.  Per the spec (§4.1) it produces "always a square image
of exactly `target_size_px × target_size_px` pixels, RGBA, opaque background",
with a quiet zone of light modules around the grid, each module covering whole
pixels at a nearest-integer scale chosen so the matrix plus quiet zone fits
within the target size.  Dark modules render as the darkest value, light
modules and the quiet zone as the lightest, all fully opaque. -/
def rasterize (m : ModuleMatrix) (targetSize : Nat) : RgbaImage :=
  let totalModules := m.side + 2 * 4
  let modulePx := targetSize / totalModules
  let gridPx := modulePx * m.side
  let origin := (targetSize - gridPx) / 2
  { width := targetSize
    height := targetSize
    pixel := fun x y =>
      if 0 < modulePx ∧ origin ≤ x ∧ x < origin + gridPx ∧
         origin ≤ y ∧ y < origin + gridPx ∧
         m.dark ((x - origin) / modulePx) ((y - origin) / modulePx) then
        ⟨0, 0, 0, 255⟩
      else
        ⟨255, 255, 255, 255⟩ }

/-- The image that `QrGenerator::generate` hands to the PNG encoder: the
rasterization of the matrix produced by the external matrix encoder at level
`H`, with the logo overlaid when one is configured
(`if let Some(logo) = &self.logo { img = overlay_logo(img, logo)?; }`). -/
def QrGenerator.generateImage (ops : ImageOps) (enc : MatrixEncoder)
    (g : QrGenerator) (content : String) : Except String RgbaImage :=
  match enc content EcLevel.H with
  | .error e => .error ("Failed to create QR code: " ++ e)
  | .ok qr =>
    let img := rasterize qr g.size
    match g.logo with
    | some logo => .ok (overlay_logo ops img logo)
    | none => .ok img

/-- Source: `pub fn generate(&self, content: &str) -> Result<Vec<u8>, String>`:
matrix encoding at `EcLevel::H` (failure mapped to
`"Failed to create QR code: {e}"`), rasterization, optional logo overlay, and
PNG serialization (failure mapped to `"Failed to encode PNG: {e}"`). -/
def QrGenerator.generate (ops : ImageOps) (enc : MatrixEncoder) (png : PngSink)
    (g : QrGenerator) (content : String) : Except String (List Nat) :=
  match g.generateImage ops enc content with
  | .error e => .error e
  | .ok img =>
    match png img with
    | .error e => .error ("Failed to encode PNG: " ++ e)
    | .ok bytes => .ok bytes

/-! ## Logo loading (`load_logo`, `load_svg_logo`, `load_raster_logo`) -/

/-- The size of a parsed SVG tree (`tree.size()`, with `width() as u32` and
`height() as u32` already applied). -/
structure SvgTree where
  width : Nat
  height : Nat

/-- The external capabilities `load_logo` touches: `std::fs::read`,
`resvg::usvg::Tree::from_data`, `tiny_skia::Pixmap::new` (which yields `None`
for bad dimensions; the white `fill` is folded into the produced buffer),
`resvg::render` (infallible, mutates the pixmap buffer),
`RgbaImage::from_raw` (which yields `None` on a size mismatch), and
`image::open(path)?.to_rgba8()`.  File paths are modelled as strings, raw
pixel buffers as `List Nat`. -/
structure LogoCaps where
  readFile : String → Except String (List Nat)
  svgParse : List Nat → Except String SvgTree
  pixmapNew : Nat → Nat → Option (List Nat)
  render : SvgTree → ℚ → List Nat → List Nat
  fromRaw : Nat → Nat → List Nat → Option RgbaImage
  imageOpen : String → Except String RgbaImage

/-- Source: `let scale = 200.0 / width.max(height) as f32;` — the working resolution
of a rendered vector logo (longer side ≈ 200 px). -/
def svgScaleOf (tree : SvgTree) : ℚ := 200 / (max tree.width tree.height : ℚ)

/-- Source: `let scaled_width = (width as f32 * scale) as u32;` -/
def svgScaledWidthOf (tree : SvgTree) : Nat :=
  Nat.floor ((tree.width : ℚ) * svgScaleOf tree)

/-- Source: `let scaled_height = (height as f32 * scale) as u32;` -/
def svgScaledHeightOf (tree : SvgTree) : Nat :=
  Nat.floor ((tree.height : ℚ) * svgScaleOf tree)

/-- Source: `fn load_svg_logo(path: &PathBuf) -> Result<RgbaImage, String>`: read the
file, parse the SVG, compute the working resolution, create the pixmap,
render into it at `scale`, and convert the buffer to an `RgbaImage`. -/
def load_svg_logo (caps : LogoCaps) (path : String) : Except String RgbaImage :=
  match caps.readFile path with
  | .error e => .error ("Failed to read SVG file: " ++ e)
  | .ok svg_data =>
    match caps.svgParse svg_data with
    | .error e => .error ("Failed to parse SVG: " ++ e)
    | .ok tree =>
      match caps.pixmapNew (svgScaledWidthOf tree) (svgScaledHeightOf tree) with
      | none => .error "Failed to create pixmap"
      | some pixmap =>
        match caps.fromRaw (svgScaledWidthOf tree) (svgScaledHeightOf tree)
            (caps.render tree (svgScaleOf tree) pixmap) with
        | none => .error "Failed to create image from pixmap"
        | some img => .ok img

/-- Source: `fn load_raster_logo(path: &PathBuf) -> Result<RgbaImage, String>`. -/
def load_raster_logo (caps : LogoCaps) (path : String) : Except String RgbaImage :=
  match caps.imageOpen path with
  | .error e => .error ("Failed to open logo image: " ++ e)
  | .ok img => .ok img

/-- Splitting a character list at a separator, keeping empty pieces
(`str::split` over one separator character). -/
def splitOnChar (sep : Char) : List Char → List (List Char)
  | [] => [[]]
  | c :: cs =>
    match splitOnChar sep cs with
    | [] => if c = sep then [[], [c]] else [[c]]
    | r :: rs => if c = sep then [] :: r :: rs else (c :: r) :: rs

/-- Source: `Path::file_name` on a path string: the last component of the path,
ignoring trailing separators and `.` components; `..`, a bare root and the
empty path have no file name. -/
def fileNameOf (p : String) : Option (List Char) :=
  let comps := (splitOnChar '/' p.toList).filter (fun c => c ≠ [] ∧ c ≠ ['.'])
  match comps.getLast? with
  | none => none
  | some c => if c = ['.', '.'] then none else some c

/-- Source: `Path::extension` on a path string: the portion of the file name after the
last `.`, provided the portion before that `.` is nonempty (so `".svg"` and
`"logo"` have no extension, while `"logo."` has extension `""`). -/
def extensionOf (p : String) : Option String :=
  match fileNameOf p with
  | none => none
  | some cs =>
    if cs.contains '.' then
      let after := (cs.reverse.takeWhile (fun c => c ≠ '.')).reverse
      if cs.length = after.length + 1 then none
      else some (String.mk after)
    else none

/-- Source: `str::to_lowercase` restricted to its ASCII action (the only part the
extension comparison depends on). -/
def lowerAscii (s : String) : String := String.mk (s.toList.map Char.toLower)

/-- The message of `Err(format!("Unsupported logo format: {:?}. Use PNG or SVG.", path))`
(`{:?}` renders the path quoted). -/
def unsupportedFormatMsg (path : String) : String :=
  "Unsupported logo format: \"" ++ path ++ "\". Use PNG or SVG."

/-- Source: `fn load_logo(path: &PathBuf) -> Result<RgbaImage, String>`: dispatch on
the lowercased file extension — `"svg"` to the vector loader, `"png"`, `"jpg"`
or `"jpeg"` to the raster loader, anything else (including a missing
extension) to the unsupported-format error. -/
def load_logo (caps : LogoCaps) (path : String) : Except String RgbaImage :=
  match (extensionOf path).map lowerAscii with
  | some "svg" => load_svg_logo caps path
  | some "png" | some "jpg" | some "jpeg" => load_raster_logo caps path
  | _ => .error (unsupportedFormatMsg path)

/-- Source: `pub fn new(size: u32, logo_path: Option<PathBuf>) -> Result<Self, String>`:
load the logo when a path is given (propagating its failure via `?`), then
build the generator. -/
def QrGenerator.new (caps : LogoCaps) (size : Nat) (logo_path : Option String) :
    Except String QrGenerator :=
  match logo_path with
  | some path =>
    match load_logo caps path with
    | .error e => .error e
    | .ok logo_image => .ok { size := size, logo := some logo_image }
  | none => .ok { size := size, logo := none }

/-! ## Concrete sample inputs used by the witness theorems -/

/-- A resize implementation satisfying the `image::imageops::resize` contract
(output has exactly the requested dimensions), used to instantiate witnesses. -/
def idOps : ImageOps :=
  ⟨fun img w h => { width := w, height := h, pixel := img.pixel }⟩

/-- A small all-dark QR canvas. -/
def blackImage3 : RgbaImage :=
  { width := 3, height := 3, pixel := fun _ _ => ⟨0, 0, 0, 255⟩ }

/-- A 512×512 canvas. -/
def qr512 : RgbaImage :=
  { width := 512, height := 512, pixel := fun _ _ => ⟨0, 0, 0, 255⟩ }

/-- A 1×1 opaque logo. -/
def logo1 : RgbaImage :=
  { width := 1, height := 1, pixel := fun _ _ => ⟨9, 9, 9, 255⟩ }

/-- A 64×64 opaque logo. -/
def logo64 : RgbaImage :=
  { width := 64, height := 64, pixel := fun _ _ => ⟨200, 10, 10, 255⟩ }

/-- A concrete module matrix standing in for the matrix encoder's output. -/
def sampleMatrix : ModuleMatrix :=
  ⟨21, fun x y => (x + y) % 2 == 0⟩

/-- A concrete matrix-encoding capability with a 100-byte capacity, used to
instantiate witnesses. -/
def sampleEnc : MatrixEncoder :=
  fun content _level =>
    if content.length ≤ 100 then .ok sampleMatrix else .error "data too long"

/-- A concrete PNG serialization capability, used to instantiate witnesses. -/
def samplePng : PngSink := fun img => .ok [img.width, img.height]

/-- Concrete logo-loading capabilities whose filesystem has no readable files,
used to instantiate witnesses. -/
def sampleCaps : LogoCaps :=
  { readFile := fun _ => .error "No such file or directory (os error 2)"
    svgParse := fun _ => .error "SVG data parsing failed"
    pixmapNew := fun _ _ => none
    render := fun _ _ buf => buf
    fromRaw := fun _ _ _ => none
    imageOpen := fun _ => .error "The system cannot find the file specified." }

/-- A 2×2 grey canvas for the compositing witness. -/
def qrGrey2 : RgbaImage :=
  { width := 2, height := 2, pixel := fun _ _ => ⟨100, 50, 200, 255⟩ }

/-- A 1×1 translucent red logo (alpha 51 = 20%) for the compositing witness. -/
def srcRed1 : RgbaImage :=
  { width := 1, height := 1, pixel := fun _ _ => ⟨255, 0, 0, 51⟩ }

/-- A content string longer than `sampleEnc`'s capacity. -/
def longContent : String := String.mk (List.replicate 101 'a')

/-! ## Helper lemmas -/

lemma scaleOf_nonneg (qr logo : RgbaImage) : 0 ≤ scaleOf qr logo := by
  unfold scaleOf
  apply le_min _ zero_le_one
  positivity

lemma scaleOf_le_one (qr logo : RgbaImage) : scaleOf qr logo ≤ 1 :=
  min_le_right _ _

lemma dim_mul_scale_le_maxLogoSize (qr logo : RgbaImage) (d : Nat)
    (hd : d ≤ max logo.width logo.height) :
    (d : ℚ) * scaleOf qr logo ≤ (maxLogoSizeOf qr : ℚ) := by
  set M := maxLogoSizeOf qr with hM
  set mx := max logo.width logo.height with hmx
  rcases Nat.eq_zero_or_pos mx with h0 | hpos
  · have hd0 : d = 0 := by omega
    subst hd0
    simp only [Nat.cast_zero, zero_mul]
    positivity
  · have hscale : scaleOf qr logo ≤ (M : ℚ) / (mx : ℚ) := by
      unfold scaleOf
      rw [← hM, ← Nat.cast_max, ← hmx]
      exact min_le_left _ _
    have hmxQ : (0 : ℚ) < (mx : ℚ) := by exact_mod_cast hpos
    have h1 : (d : ℚ) * scaleOf qr logo ≤ (d : ℚ) * ((M : ℚ) / (mx : ℚ)) :=
      mul_le_mul_of_nonneg_left hscale (by positivity)
    have h2 : (d : ℚ) * ((M : ℚ) / (mx : ℚ)) ≤ (mx : ℚ) * ((M : ℚ) / (mx : ℚ)) := by
      apply mul_le_mul_of_nonneg_right _ (by positivity)
      exact_mod_cast hd
    have h3 : (mx : ℚ) * ((M : ℚ) / (mx : ℚ)) = (M : ℚ) := by
      field_simp
    linarith

lemma newWidthOf_le_maxLogoSize (qr logo : RgbaImage) :
    newWidthOf qr logo ≤ maxLogoSizeOf qr := by
  have h := dim_mul_scale_le_maxLogoSize qr logo logo.width (le_max_left _ _)
  calc newWidthOf qr logo
      ≤ Nat.floor ((maxLogoSizeOf qr : ℚ)) := Nat.floor_le_floor h
    _ = maxLogoSizeOf qr := Nat.floor_natCast _

lemma newHeightOf_le_maxLogoSize (qr logo : RgbaImage) :
    newHeightOf qr logo ≤ maxLogoSizeOf qr := by
  have h := dim_mul_scale_le_maxLogoSize qr logo logo.height (le_max_right _ _)
  calc newHeightOf qr logo
      ≤ Nat.floor ((maxLogoSizeOf qr : ℚ)) := Nat.floor_le_floor h
    _ = maxLogoSizeOf qr := Nat.floor_natCast _

lemma maxLogoSizeOf_le (qr : RgbaImage) :
    (maxLogoSizeOf qr : ℚ) ≤ (20 / 100) * ((min qr.width qr.height : Nat) : ℚ) := by
  have h0 : (0 : ℚ) ≤ (qrSizeOf qr : ℚ) * LOGO_MAX_SCALE := by
    unfold LOGO_MAX_SCALE
    positivity
  have h := Nat.floor_le h0
  unfold maxLogoSizeOf
  unfold qrSizeOf LOGO_MAX_SCALE at *
  linarith

lemma newWidthOf_le_width (qr logo : RgbaImage) : newWidthOf qr logo ≤ logo.width := by
  have h : (logo.width : ℚ) * scaleOf qr logo ≤ ((logo.width : Nat) : ℚ) := by
    have h1 := scaleOf_le_one qr logo
    have h0 : (0 : ℚ) ≤ (logo.width : ℚ) := by positivity
    nlinarith
  calc newWidthOf qr logo
      ≤ Nat.floor (((logo.width : Nat) : ℚ)) := Nat.floor_le_floor h
    _ = logo.width := Nat.floor_natCast _

lemma newHeightOf_le_height (qr logo : RgbaImage) : newHeightOf qr logo ≤ logo.height := by
  have h : (logo.height : ℚ) * scaleOf qr logo ≤ ((logo.height : Nat) : ℚ) := by
    have h1 := scaleOf_le_one qr logo
    have h0 : (0 : ℚ) ≤ (logo.height : ℚ) := by positivity
    nlinarith
  calc newHeightOf qr logo
      ≤ Nat.floor (((logo.height : Nat) : ℚ)) := Nat.floor_le_floor h
    _ = logo.height := Nat.floor_natCast _

lemma overlay_logo_width (ops : ImageOps) (qr logo : RgbaImage) :
    (overlay_logo ops qr logo).width = qr.width := rfl

lemma overlay_logo_height (ops : ImageOps) (qr logo : RgbaImage) :
    (overlay_logo ops qr logo).height = qr.height := rfl

lemma paintBackground_pixel_out (qr : RgbaImage) (bgX bgY bgW bgH x y : Nat)
    (h : qr.width ≤ x ∨ qr.height ≤ y) :
    (paintBackground qr bgX bgY bgW bgH).pixel x y = qr.pixel x y := by
  unfold paintBackground
  dsimp only
  rw [if_neg]
  rintro ⟨_, hx, _, hy⟩
  rcases h with h | h <;> omega

lemma blendLogo_pixel_out (qr src : RgbaImage) (xOffset yOffset x y : Nat)
    (h : qr.width ≤ x ∨ qr.height ≤ y) :
    (blendLogo qr src xOffset yOffset).pixel x y = qr.pixel x y := by
  unfold blendLogo
  dsimp only
  rw [if_neg]
  rintro ⟨_, _, _, _, hx, hy, _⟩
  rcases h with h | h <;> omega

lemma overlay_logo_pixel_out (ops : ImageOps) (qr logo : RgbaImage) (x y : Nat)
    (h : qr.width ≤ x ∨ qr.height ≤ y) :
    (overlay_logo ops qr logo).pixel x y = qr.pixel x y := by
  unfold overlay_logo
  have h1 := blendLogo_pixel_out
    (paintBackground qr (xOffsetOf qr logo - PADDING) (yOffsetOf qr logo - PADDING)
      (newWidthOf qr logo + PADDING * 2) (newHeightOf qr logo + PADDING * 2))
    (ops.resize logo (newWidthOf qr logo) (newHeightOf qr logo))
    (xOffsetOf qr logo) (yOffsetOf qr logo) x y h
  rw [h1, paintBackground_pixel_out _ _ _ _ _ _ _ h]

/-! ## Claim theorems -/

/-- C1 (safe-area bound): for every QR image and every configured logo, the
logo's footprint after the compositor's scaling step has its longer side at
most 20% of the QR image's shorter side:
`max(scaled_logo_width, scaled_logo_height) ≤ 0.20 * min(qr_width, qr_height)`. -/
theorem safe_area_bound (qr logo : RgbaImage) :
    ((max (newWidthOf qr logo) (newHeightOf qr logo) : Nat) : ℚ) ≤
      (20 / 100) * ((min qr.width qr.height : Nat) : ℚ) := by
  have hw := newWidthOf_le_maxLogoSize qr logo
  have hh := newHeightOf_le_maxLogoSize qr logo
  have hmax : max (newWidthOf qr logo) (newHeightOf qr logo) ≤ maxLogoSizeOf qr :=
    max_le hw hh
  have hcast : ((max (newWidthOf qr logo) (newHeightOf qr logo) : Nat) : ℚ) ≤
      (maxLogoSizeOf qr : ℚ) := by exact_mod_cast hmax
  have hM := maxLogoSizeOf_le qr
  linarith

/-- C9 (scale factor rule): for every logo of dimensions `(w, h)`, the
compositor's scale factor equals `min(1.0, maxLogoSizePx / max(w, h))`; both
dimensions are multiplied by that same factor (truncating to whole pixels), so
the aspect ratio is preserved, and the logo is only ever shrunk, never
enlarged. -/
theorem scale_factor_rule (qr logo : RgbaImage) :
    scaleOf qr logo =
      min 1 ((maxLogoSizeOf qr : ℚ) / (max (logo.width : ℚ) (logo.height : ℚ))) ∧
    newWidthOf qr logo = Nat.floor ((logo.width : ℚ) * scaleOf qr logo) ∧
    newHeightOf qr logo = Nat.floor ((logo.height : ℚ) * scaleOf qr logo) ∧
    newWidthOf qr logo ≤ logo.width ∧
    newHeightOf qr logo ≤ logo.height :=
  ⟨min_comm _ _, rfl, rfl, newWidthOf_le_width qr logo, newHeightOf_le_height qr logo⟩

/-- C8 (clipping safety): for every QR image and every logo — including one
whose scaled footprint or backing rectangle extends past the canvas — the
overlay never modifies a coordinate outside the QR image bounds (out-of-bounds
logo pixels are silently skipped, with no error possible), and the output
image's dimensions equal the input QR image's dimensions. -/
theorem clipping_safety (ops : ImageOps) (qr logo : RgbaImage) :
    ((overlay_logo ops qr logo).width = qr.width ∧
      (overlay_logo ops qr logo).height = qr.height) ∧
    ∀ x y : Nat, (overlay_logo ops qr logo).pixel x y ≠ qr.pixel x y →
      x < qr.width ∧ y < qr.height := by
  refine ⟨⟨rfl, rfl⟩, fun x y hdiff => ?_⟩
  by_contra hcon
  have h : qr.width ≤ x ∨ qr.height ≤ y := by
    rcases Nat.lt_or_ge x qr.width with hx | hx
    · rcases Nat.lt_or_ge y qr.height with hy | hy
      · exact absurd ⟨hx, hy⟩ hcon
      · exact Or.inr hy
    · exact Or.inl hx
  exact hdiff (overlay_logo_pixel_out ops qr logo x y h)

/-- C8 witness: a 1×1 logo on a 3×3 canvas, where the 4-pixel backing padding
overflows the whole canvas; the painted pixel `(0,0)` lies inside the bounds. -/
theorem clipping_safety_witness :
    (0 : Nat) < blackImage3.width ∧ (0 : Nat) < blackImage3.height :=
  (clipping_safety idOps blackImage3 logo1).2 0 0 (by
    have hms : maxLogoSizeOf blackImage3 = 0 := by
      norm_num [maxLogoSizeOf, qrSizeOf, LOGO_MAX_SCALE, blackImage3]
    have hw : newWidthOf blackImage3 logo1 = 0 := by
      norm_num [newWidthOf, scaleOf, hms, logo1]
    have hh : newHeightOf blackImage3 logo1 = 0 := by
      norm_num [newHeightOf, scaleOf, hms, logo1]
    simp only [overlay_logo, idOps, blendLogo, paintBackground, xOffsetOf,
      yOffsetOf, PADDING, hw, hh]
    norm_num [blackImage3, logo1])

/-- C6 (alpha compositing rule): for every logo pixel with nonzero alpha `a`,
the compositor writes at the corresponding destination coordinate the
per-channel convex combination `(1 - a)*dst + a*src` (with `a` normalized to
`[0,1]` and the result truncated to a whole channel value), forcing the
result's alpha channel to fully opaque `255`; every logo pixel with zero alpha
leaves its destination pixel untouched. -/
theorem alpha_compositing_rule (qr src : RgbaImage) (xOffset yOffset lx ly : Nat)
    (hlx : lx < src.width) (hly : ly < src.height)
    (hqx : xOffset + lx < qr.width) (hqy : yOffset + ly < qr.height) :
    ((src.pixel lx ly).a ≠ 0 →
      (blendLogo qr src xOffset yOffset).pixel (xOffset + lx) (yOffset + ly) =
        { r := Nat.floor ((1 - ((src.pixel lx ly).a : ℚ) / 255) *
                  ((qr.pixel (xOffset + lx) (yOffset + ly)).r : ℚ) +
                (((src.pixel lx ly).a : ℚ) / 255) * ((src.pixel lx ly).r : ℚ))
          g := Nat.floor ((1 - ((src.pixel lx ly).a : ℚ) / 255) *
                  ((qr.pixel (xOffset + lx) (yOffset + ly)).g : ℚ) +
                (((src.pixel lx ly).a : ℚ) / 255) * ((src.pixel lx ly).g : ℚ))
          b := Nat.floor ((1 - ((src.pixel lx ly).a : ℚ) / 255) *
                  ((qr.pixel (xOffset + lx) (yOffset + ly)).b : ℚ) +
                (((src.pixel lx ly).a : ℚ) / 255) * ((src.pixel lx ly).b : ℚ))
          a := 255 }) ∧
    ((src.pixel lx ly).a = 0 →
      (blendLogo qr src xOffset yOffset).pixel (xOffset + lx) (yOffset + ly) =
        qr.pixel (xOffset + lx) (yOffset + ly)) := by
  have hidx : xOffset + lx - xOffset = lx := by omega
  have hidy : yOffset + ly - yOffset = ly := by omega
  constructor
  · intro ha
    have hcond : xOffset ≤ xOffset + lx ∧ xOffset + lx < xOffset + src.width ∧
        yOffset ≤ yOffset + ly ∧ yOffset + ly < yOffset + src.height ∧
        xOffset + lx < qr.width ∧ yOffset + ly < qr.height ∧
        (0 : ℚ) <
          ((src.pixel (xOffset + lx - xOffset) (yOffset + ly - yOffset)).a : ℚ) / 255 := by
      refine ⟨by omega, by omega, by omega, by omega, hqx, hqy, ?_⟩
      rw [hidx, hidy]
      have hpos : 0 < (src.pixel lx ly).a := Nat.pos_of_ne_zero ha
      have hq : (0 : ℚ) < ((src.pixel lx ly).a : ℚ) := by exact_mod_cast hpos
      positivity
    unfold blendLogo
    dsimp only
    rw [if_pos hcond, hidx, hidy]
    simp only [blendPixel]
  · intro ha
    unfold blendLogo
    dsimp only
    rw [if_neg]
    rintro ⟨-, -, -, -, -, -, hpos⟩
    rw [hidx, hidy, ha] at hpos
    norm_num at hpos

/-- C6 witness: a 20%-alpha pure-red pixel over a `(100, 50, 200)` background
blends to `(131, 40, 160)` with alpha forced to `255`. -/
theorem alpha_compositing_rule_witness :
    (blendLogo qrGrey2 srcRed1 0 0).pixel 0 0 = ⟨131, 40, 160, 255⟩ := by
  have h := (alpha_compositing_rule qrGrey2 srcRed1 0 0 0 0
    (by norm_num [srcRed1]) (by norm_num [srcRed1])
    (by norm_num [qrGrey2]) (by norm_num [qrGrey2])).1 (by norm_num [srcRed1])
  rw [h]
  norm_num [qrGrey2, srcRed1]

/-- C2 (exact output size): for every configuration and every content string
the matrix encoder accepts, the image that `generate` serializes (the
rasterization, with or without the logo overlay) is a square of exactly
`target_size_px × target_size_px` pixels.  The rasterizer itself is the
`qrcode` crate's renderer, modelled from the spec (see `rasterize`). -/
theorem exact_output_size (ops : ImageOps) (enc : MatrixEncoder)
    (g : QrGenerator) (content : String) (img : RgbaImage)
    (h : g.generateImage ops enc content = .ok img) :
    img.width = g.size ∧ img.height = g.size := by
  unfold QrGenerator.generateImage at h
  cases henc : enc content EcLevel.H with
  | error e =>
    rw [henc] at h
    exact absurd h (by simp)
  | ok m =>
    rw [henc] at h
    cases hl : g.logo with
    | none =>
      rw [hl] at h
      simp only [Except.ok.injEq] at h
      subst h
      exact ⟨rfl, rfl⟩
    | some logo =>
      rw [hl] at h
      simp only [Except.ok.injEq] at h
      subst h
      exact ⟨overlay_logo_width ops _ logo, overlay_logo_height ops _ logo⟩

/-- C2 witness: with a 21-module matrix and target size 256, the generated
image is 256×256. -/
theorem exact_output_size_witness :
    (rasterize sampleMatrix 256).width = 256 ∧
      (rasterize sampleMatrix 256).height = 256 :=
  exact_output_size idOps sampleEnc ⟨256, none⟩ "https://example.com"
    (rasterize sampleMatrix 256) rfl

/-- C3 (determinism): two calls to `generate` with identical content on
engines with identical configuration (same size, same loaded logo buffer) —
and the same external capabilities, which are fixed program code — return
identical byte sequences. -/
theorem generate_deterministic (ops : ImageOps) (enc : MatrixEncoder)
    (png : PngSink) (g1 g2 : QrGenerator) (content : String)
    (hsize : g1.size = g2.size) (hlogo : g1.logo = g2.logo) :
    QrGenerator.generate ops enc png g1 content =
      QrGenerator.generate ops enc png g2 content := by
  cases g1
  cases g2
  simp only at hsize hlogo
  subst hsize
  subst hlogo
  rfl

/-- C3 witness: two identically configured engines (size 512, same logo)
produce the same output for the same content. -/
theorem generate_deterministic_witness :
    QrGenerator.generate idOps sampleEnc samplePng ⟨512, some logo64⟩
        "https://s.example/Ab3kP9x" =
      QrGenerator.generate idOps sampleEnc samplePng ⟨512, some logo64⟩
        "https://s.example/Ab3kP9x" :=
  generate_deterministic idOps sampleEnc samplePng ⟨512, some logo64⟩
    ⟨512, some logo64⟩ "https://s.example/Ab3kP9x" rfl rfl

/-- C5 (content-too-large propagation): whenever the matrix-encoding
capability fails (content exceeds the maximum symbol capacity at level H),
`generate` propagates the failure as the distinct
`"Failed to create QR code: …"` condition and produces no output bytes; the
only content gate in `generate` is this capability call, so the engine imposes
no content-length limit of its own. -/
theorem content_too_large_propagation (ops : ImageOps) (enc : MatrixEncoder)
    (png : PngSink) (g : QrGenerator) (content : String) (e : String)
    (h : enc content EcLevel.H = .error e) :
    QrGenerator.generate ops enc png g content =
      .error ("Failed to create QR code: " ++ e) ∧
    ∀ bytes : List Nat, QrGenerator.generate ops enc png g content ≠ .ok bytes := by
  have hmain : QrGenerator.generate ops enc png g content =
      .error ("Failed to create QR code: " ++ e) := by
    unfold QrGenerator.generate QrGenerator.generateImage
    rw [h]
  refine ⟨hmain, fun bytes hb => ?_⟩
  rw [hmain] at hb
  exact absurd hb (by simp)

/-- C5 witness: 101 bytes of content against a 100-byte-capacity encoder
yields the content-too-large error and no bytes. -/
theorem content_too_large_propagation_witness :
    QrGenerator.generate idOps sampleEnc samplePng ⟨256, none⟩ longContent =
      .error ("Failed to create QR code: " ++ "data too long") :=
  (content_too_large_propagation idOps sampleEnc samplePng ⟨256, none⟩ longContent
    "data too long" rfl).1

/-- C7 (no-logo pass-through): for an engine constructed without a logo and
content the matrix encoder accepts, the image handed to the PNG encoder is
exactly the raw rasterized module matrix (no backing patch, no blended
pixel), so the output equals the PNG encoding of the rasterization alone. -/
theorem no_logo_passthrough (ops : ImageOps) (enc : MatrixEncoder)
    (png : PngSink) (size : Nat) (content : String) (m : ModuleMatrix)
    (henc : enc content EcLevel.H = .ok m) :
    QrGenerator.generateImage ops enc ⟨size, none⟩ content =
      .ok (rasterize m size) ∧
    ∀ bytes : List Nat, png (rasterize m size) = .ok bytes →
      QrGenerator.generate ops enc png ⟨size, none⟩ content = .ok bytes := by
  have himg : QrGenerator.generateImage ops enc ⟨size, none⟩ content =
      .ok (rasterize m size) := by
    unfold QrGenerator.generateImage
    rw [henc]
  refine ⟨himg, fun bytes hpng => ?_⟩
  unfold QrGenerator.generate
  rw [himg]
  dsimp only
  rw [hpng]

/-- C7 witness: without a logo, the generated bytes are the PNG encoding of
the raw 256×256 rasterization. -/
theorem no_logo_passthrough_witness :
    QrGenerator.generate idOps sampleEnc samplePng ⟨256, none⟩
      "https://example.com" = .ok [256, 256] :=
  (no_logo_passthrough idOps sampleEnc samplePng 256 "https://example.com"
    sampleMatrix rfl).2 [256, 256] rfl

lemma load_svg_logo_error_length (caps : LogoCaps) (path e : String)
    (h : load_svg_logo caps path = .error e) : 0 < e.length := by
  have l1 : 0 < ("Failed to read SVG file: " : String).length := by decide
  have l2 : 0 < ("Failed to parse SVG: " : String).length := by decide
  have l3 : 0 < ("Failed to create pixmap" : String).length := by decide
  have l4 : 0 < ("Failed to create image from pixmap" : String).length := by decide
  unfold load_svg_logo at h
  cases h1 : caps.readFile path with
  | error e0 =>
    simp only [h1, Except.error.injEq] at h
    subst h
    simp only [String.length_append]
    omega
  | ok svg_data =>
    simp only [h1] at h
    cases h2 : caps.svgParse svg_data with
    | error e0 =>
      simp only [h2, Except.error.injEq] at h
      subst h
      simp only [String.length_append]
      omega
    | ok tree =>
      simp only [h2] at h
      cases h3 : caps.pixmapNew (svgScaledWidthOf tree) (svgScaledHeightOf tree) with
      | none =>
        simp only [h3, Except.error.injEq] at h
        subst h
        omega
      | some pixmap =>
        simp only [h3] at h
        cases h4 : caps.fromRaw (svgScaledWidthOf tree) (svgScaledHeightOf tree)
            (caps.render tree (svgScaleOf tree) pixmap) with
        | none =>
          simp only [h4, Except.error.injEq] at h
          subst h
          omega
        | some img =>
          simp only [h4] at h
          exact absurd h (by simp)

lemma load_raster_logo_error_length (caps : LogoCaps) (path e : String)
    (h : load_raster_logo caps path = .error e) : 0 < e.length := by
  have l1 : 0 < ("Failed to open logo image: " : String).length := by decide
  unfold load_raster_logo at h
  split at h
  · simp at h
    subst h
    simp only [String.length_append]
    omega
  · simp at h

lemma load_logo_error_length (caps : LogoCaps) (path e : String)
    (h : load_logo caps path = .error e) : 0 < e.length := by
  have l1 : 0 < ("Unsupported logo format: \"" : String).length := by decide
  unfold load_logo at h
  split at h <;>
    first
      | exact load_svg_logo_error_length caps path e h
      | exact load_raster_logo_error_length caps path e h
      | (simp only [Except.error.injEq] at h
         subst h
         unfold unsupportedFormatMsg
         simp only [String.length_append]
         omega)

/-- C4 (fail-fast construction): for every logo path whose loading fails
(unreadable file, unparseable vector source, failed render, or unsupported
extension), `QrGenerator::new` returns that failure and no engine value; the
failure carries a nonempty human-readable reason (never silently swallowed). -/
theorem fail_fast_construction (caps : LogoCaps) (size : Nat) (path e : String)
    (h : load_logo caps path = .error e) :
    QrGenerator.new caps size (some path) = .error e ∧
    (∀ g : QrGenerator, QrGenerator.new caps size (some path) ≠ .ok g) ∧
    0 < e.length := by
  have hmain : QrGenerator.new caps size (some path) = .error e := by
    unfold QrGenerator.new
    simp only [h]
  refine ⟨hmain, fun g hg => ?_, load_logo_error_length caps path e h⟩
  rw [hmain] at hg
  exact absurd hg (by simp)

/-- C4 witness: a missing `logo.png` makes construction fail with the loader's
message; no engine is returned. -/
theorem fail_fast_construction_witness :
    QrGenerator.new sampleCaps 256 (some "logo.png") =
      .error ("Failed to open logo image: " ++
        "The system cannot find the file specified.") :=
  (fail_fast_construction sampleCaps 256 "logo.png"
    ("Failed to open logo image: " ++
      "The system cannot find the file specified.") rfl).1

/-- C10 (logo extension matching): the file extension selecting the asset
kind is compared after lowercasing, the accepted set is exactly `{svg}` for
the vector path and `{png, jpg, jpeg}` for the raster path, and any other or
missing extension fails with the unsupported-format error, whose message
names only PNG and SVG. -/
theorem logo_extension_matching (caps : LogoCaps) (path : String) :
    ((extensionOf path).map lowerAscii = some "svg" →
      load_logo caps path = load_svg_logo caps path) ∧
    (∀ s : String, (extensionOf path).map lowerAscii = some s →
      s = "png" ∨ s = "jpg" ∨ s = "jpeg" →
      load_logo caps path = load_raster_logo caps path) ∧
    (∀ s : String, (extensionOf path).map lowerAscii = some s →
      s ≠ "svg" → s ≠ "png" → s ≠ "jpg" → s ≠ "jpeg" →
      load_logo caps path = .error (unsupportedFormatMsg path)) ∧
    ((extensionOf path).map lowerAscii = none →
      load_logo caps path = .error (unsupportedFormatMsg path)) ∧
    unsupportedFormatMsg path =
      "Unsupported logo format: \"" ++ path ++ "\". Use PNG or SVG." := by
  refine ⟨?_, ?_, ?_, ?_, rfl⟩
  · intro hext
    simp only [load_logo, hext]
  · rintro s hext (rfl | rfl | rfl) <;> simp only [load_logo, hext]
  · intro s hext h1 h2 h3 h4
    simp only [load_logo, hext]
    split
    · next heq => exact absurd (Option.some.inj heq) h1
    · next heq => exact absurd (Option.some.inj heq) h2
    · next heq => exact absurd (Option.some.inj heq) h3
    · next heq => exact absurd (Option.some.inj heq) h4
    · rfl
  · intro hext
    simp only [load_logo, hext]

/-- C10 witness: the uppercase extension `"SVG"` is matched case-insensitively
and dispatches to the vector loader. -/
theorem logo_extension_matching_witness :
    load_logo sampleCaps "assets/Logo.SVG" =
      load_svg_logo sampleCaps "assets/Logo.SVG" :=
  (logo_extension_matching sampleCaps "assets/Logo.SVG").1 (by decide)
